import Mathlib

set_option maxHeartbeats 1000000
set_option linter.unusedVariables false

/-!
Verification development for the `wm` working-memory log CLI (wm.go).

The Go program is embedded shallowly: pure fragments become Lean functions
over `List Char` / `String`, the filesystem becomes an association list from
paths to contents, and fatal `log.Fatalln` exits become `Except` errors.
Machine `int` values that stay nonnegative are modelled as `Nat`; the context
window arithmetic, which can go negative before clamping, uses `Int`.
-/

namespace WM

/-- A resolved calendar date (Go struct `DatePath` in wm.go, lines 19-23; its
`int` fields are nonnegative for every date produced by the program). -/
structure DatePath where
  year : Nat
  month : Nat
  day : Nat
  deriving DecidableEq, Repr

/-- `strings.Contains(hay, needle)` over character lists (used at wm.go line
248 to detect the `~/` home marker). -/
def strContains (hay needle : List Char) : Bool :=
  needle.isPrefixOf hay ||
    match hay with
    | [] => false
    | _ :: t => strContains t needle

/-- `strings.Replace(hay, old, new, 1)`: replace the first occurrence of
`old` (wm.go line 253). -/
def replaceFirst (hay old new : List Char) : List Char :=
  if old.isPrefixOf hay then new ++ hay.drop old.length
  else
    match hay with
    | [] => []
    | c :: t => c :: replaceFirst t old new

/-- `strings.ReplaceAll(hay, old, new)` (wm.go line 254; `old` is the
nonempty string "/" there). -/
def replaceAll (hay old new : List Char) : List Char :=
  if h : old ≠ [] ∧ old.isPrefixOf hay then
    new ++ replaceAll (hay.drop old.length) old new
  else
    match hay with
    | [] => []
    | c :: t => c :: replaceAll t old new
termination_by hay.length
decreasing_by
  · have hpre : old <+: hay := by
      have := h.2
      exact List.isPrefixOf_iff_prefix.mp this
    have h1 : old.length ≤ hay.length := hpre.length_le
    have h2 : 0 < old.length := List.length_pos.mpr h.1
    simp [List.length_drop]
    omega
  · simp

/-- `DatePath.String` (wm.go lines 89-91): the `/{year}/{month}/{day}.txt`
suffix, `%d`-formatted with no zero padding. -/
def DatePath.string (pd : DatePath) : String :=
  "/" ++ toString pd.year ++ "/" ++ toString pd.month ++ "/" ++ toString pd.day ++ ".txt"

/-- `cfg.Root + pd.String()` (wm.go line 247). -/
def buildPath (root : String) (pd : DatePath) : String :=
  root ++ pd.string

/-- The header written into a fresh working-memory file (wm.go lines 268-272). -/
def headerFor (pd : DatePath) : String :=
  "Working Memory File\n" ++ toString pd.month ++ "/" ++ toString pd.day ++ "/"
    ++ toString pd.year ++ "\n-------------------\n\n"

/-- The filesystem, as a map from paths to file contents. -/
def FileSys : Type := List (String × List Char)

/-- `os.Stat` succeeding, i.e. the file exists (wm.go line 262). -/
def statExists (fsys : FileSys) (p : String) : Bool :=
  (List.lookup p fsys).isSome

/-- wm.go lines 262-285: if the working-memory file does not exist, create it
and write the header; if it exists, leave the filesystem untouched. -/
def ensureLogFile (fsys : FileSys) (p : String) (pd : DatePath) : FileSys :=
  if statExists fsys p then fsys else (p, (headerFor pd).data) :: fsys

/-- The configuration struct (wm.go lines 93-97). -/
structure Configuration where
  Root : String
  Editor : String
  ContextSize : Int
  deriving DecidableEq, Repr

/-- A TOML configuration document, abstracted to the three keys the program
reads (`root`, `editor`, `context_size`); a `none` field is an omitted key. -/
structure ConfigDoc where
  root : Option String
  editor : Option String
  context_size : Option Int
  deriving DecidableEq, Repr

/-- The default TOML text written by `GetConfig` when no config file exists
(wm.go lines 106-108), as a structured document. -/
def defaultConfigDoc : ConfigDoc :=
  ⟨some "~/.wm/logs", some "notepad", some 200⟩

/-- `toml.Decode` into `Configuration` (wm.go line 126): a key absent from
the document leaves the Go struct field at its zero value. -/
def decodeConfig (doc : ConfigDoc) : Configuration :=
  ⟨doc.root.getD "", doc.editor.getD "", doc.context_size.getD 0⟩

/-- `GetConfig` (wm.go lines 99-131) over a filesystem of config documents:
if the file is missing it is created with the default document, then the file
is read back and decoded. Returns the configuration and the new filesystem. -/
def GetConfig (fsys : List (String × ConfigDoc)) (cfgFile : String) :
    Configuration × List (String × ConfigDoc) :=
  match List.lookup cfgFile fsys with
  | some doc => (decodeConfig doc, fsys)
  | none => (decodeConfig defaultConfigDoc, (cfgFile, defaultConfigDoc) :: fsys)

/-- wm.go lines 248-255: if the resolved path contains the `~/` marker, look
up the home directory (`os.UserHomeDir`, modelled as an `Option`; `none` is a
fatal error), replace the first occurrence of `~/` by `home + "/"`, and then
replace every `/` by a backslash. Paths without the marker pass through. -/
def resolveLogPath (home : Option String) (wmPath : String) : Except String String :=
  if strContains wmPath.data "~/".data then
    match home with
    | none => Except.error "failed to convert '~' to the users home directory"
    | some hd =>
        Except.ok (String.mk (replaceAll
          (replaceFirst wmPath.data "~/".data (hd ++ "/").data) "/".data "\\".data))
  else Except.ok wmPath

/-- Modelled from the spec (§4.2 PathBuilder), for comparison with
`resolveLogPath`: substitute the real home directory for the marker, "then
normalize all path separators to the host's native separator" `sep`. -/
def resolveLogPathSpec (sep : Char) (home : Option String) (wmPath : String) :
    Except String String :=
  if strContains wmPath.data "~/".data then
    match home with
    | none => Except.error "failed to convert '~' to the users home directory"
    | some hd =>
        Except.ok (String.mk
          ((replaceFirst wmPath.data "~/".data (hd ++ "/").data).map
            (fun c => if c = '/' ∨ c = '\\' then sep else c)))
  else Except.ok wmPath

/-- A compiled regular expression, abstracted to its observable behaviour in
the search loop: `FindAllIndex(data, -1)` returns the list of `[start, end]`
index pairs of all successive leftmost non-overlapping matches (wm.go line
217). The `regexp` package is an external collaborator, so the engine itself
is a parameter of the model. -/
def Matcher : Type :=
  List Char → List (Nat × Nat)

/-- `FindAllIndex` of a compiled literal pattern: successive leftmost
non-overlapping occurrences; an empty-string match advances one position, as
in Go's regexp engine. Used as a concrete `Matcher` instance. -/
def litFindAux (pat : List Char) : List Char → Nat → List (Nat × Nat)
  | [], pos => if pat.isEmpty then [(pos, pos)] else []
  | c :: t, pos =>
      if pat.isPrefixOf (c :: t) then
        (pos, pos + pat.length)
          :: litFindAux pat ((c :: t).drop (max 1 pat.length)) (pos + max 1 pat.length)
      else litFindAux pat t (pos + 1)
termination_by data pos => data.length
decreasing_by
  · simp [List.length_drop]
  · simp

/-- The matcher of a literal search term. -/
def litFind (pat : List Char) : Matcher :=
  fun data => litFindAux pat data 0

/-- `for i, loc := range locs`: pair every element with its 0-based index,
starting at `k`. -/
def numberFrom (k : Nat) : List α → List (Nat × α)
  | [] => []
  | a :: t => (k, a) :: numberFrom (k + 1) t

/-- wm.go lines 222-229: context bounds `loc[0] ± cfg.ContextSize`, clamped
below by 0 and above by the file length (Go `int` arithmetic, hence `Int`). -/
def windowBounds (len : Nat) (ctxSize : Int) (start : Nat) : Int × Int :=
  let lb : Int := (start : Int) - ctxSize
  let rb : Int := (start : Int) + ctxSize
  (if lb < 0 then 0 else lb, if rb > (len : Int) then (len : Int) else rb)

/-- The context window `fileData[lb:rb]` (wm.go line 230). -/
def contextAt (data : List Char) (ctxSize : Int) (start : Nat) : List Char :=
  let b := windowBounds data.length ctxSize start
  (data.drop b.1.toNat).take (b.2 - b.1).toNat

/-- wm.go lines 231-235: split the window on newlines and prepend a tab and
append a newline to every line. -/
def indentLines (s : List Char) : List Char :=
  (s.splitOn '\n').foldl (fun acc line => acc ++ '\t' :: (line ++ ['\n'])) []

/-- One emitted search hit: the 1-based number printed for it within its
term's pass, the match start offset, and the rendered context. -/
structure Hit where
  num : Nat
  start : Nat
  context : List Char
  deriving DecidableEq, Repr

/-- The inner loop `for i, loc := range locs` (wm.go lines 221-237) for one
compiled term: one numbered hit per match, in the order the engine reports. -/
def termHits (find : Matcher) (data : List Char) (ctxSize : Int) : List Hit :=
  (numberFrom 0 (find data)).map fun p =>
    ⟨p.1 + 1, p.2.1, indentLines (contextAt data ctxSize p.2.1)⟩

/-- The middle loop `for _, re := range res` (wm.go lines 216-238): terms are
processed one after the other over the same file data (a term with no matches
contributes nothing, matching the `locs == nil` continue). -/
def fileHits : List Matcher → List Char → Int → List Hit
  | [], _, _ => []
  | find :: rest, data, ctxSize =>
      termHits find data ctxSize ++ fileHits rest data ctxSize

/-- One line of search output: the read-failure warning (stderr), the
per-file header, or a numbered hit. -/
inductive OutLine where
  | warn (file : String)
  | header (file : String)
  | hit (num : Nat) (context : List Char)
  deriving DecidableEq, Repr

/-- wm.go lines 210-238 for a single file: `os.ReadFile` failure (`none`)
logs a warning but does not skip — the header is still printed and matching
proceeds over nil (empty) data. -/
def processFile (finds : List Matcher) (ctxSize : Int) (file : String)
    (content : Option (List Char)) : List OutLine :=
  (match content with
   | none => [OutLine.warn file]
   | some _ => []) ++
    OutLine.header file ::
      (fileHits finds (content.getD []) ctxSize).map (fun h => OutLine.hit h.num h.context)

/-- The outer loop `for _, file := range files` (wm.go line 210). -/
def runFiles (finds : List Matcher) (ctxSize : Int) :
    List (String × Option (List Char)) → List OutLine
  | [] => []
  | (f, c) :: rest => processFile finds ctxSize f c ++ runFiles finds ctxSize rest

/-- wm.go lines 201-208: compile all terms before any file is touched; the
first malformed term is a fatal error naming that term. -/
def compileAll (compile : String → Option Matcher) : List String → Except String (List Matcher)
  | [] => Except.ok []
  | t :: ts =>
      match compile t with
      | none => Except.error ("could not compile search term: " ++ t)
      | some m =>
          match compileAll compile ts with
          | Except.error e => Except.error e
          | Except.ok ms => Except.ok (m :: ms)

/-- The search mode (wm.go lines 195-240): compile the terms, then process
every globbed file; `files` pairs each path with its read result. -/
def runSearch (compile : String → Option Matcher) (terms : List String)
    (files : List (String × Option (List Char))) (ctxSize : Int) :
    Except String (List OutLine) :=
  match compileAll compile terms with
  | Except.error e => Except.error e
  | Except.ok res => Except.ok (runFiles res ctxSize files)

/-- One token of a `path/filepath.Match` glob pattern: `*` (any run of
non-separator characters), `?` (one non-separator character), a character
class with optional `^` negation and lo-hi ranges, or a literal character. -/
inductive GTok where
  | star
  | any
  | cls (neg : Bool) (ranges : List (Char × Char))
  | lit (c : Char)
  deriving DecidableEq, Repr

/-- Parse the ranges of a character class up to the closing `]` (Go's
`getEsc` loop; escapes are not needed for the pattern wm.go builds). The
fuel argument only bounds the recursion. -/
def parseRanges : Nat → List Char → List (Char × Char) × List Char
  | 0, p => ([], p)
  | _ + 1, [] => ([], [])
  | _ + 1, ']' :: p => ([], p)
  | fuel + 1, lo :: '-' :: hi :: p =>
      let r := parseRanges fuel p
      ((lo, hi) :: r.1, r.2)
  | fuel + 1, c :: p =>
      let r := parseRanges fuel p
      ((c, c) :: r.1, r.2)

/-- Tokenize a glob pattern (Go `path/filepath.Match` syntax, restricted to
the constructs wm.go's search pattern can contain). -/
def globToksAux : Nat → List Char → List GTok
  | 0, _ => []
  | _ + 1, [] => []
  | fuel + 1, '*' :: p => GTok.star :: globToksAux fuel p
  | fuel + 1, '?' :: p => GTok.any :: globToksAux fuel p
  | fuel + 1, '[' :: '^' :: p =>
      let r := parseRanges (fuel + 1) p
      GTok.cls true r.1 :: globToksAux fuel r.2
  | fuel + 1, '[' :: p =>
      let r := parseRanges (fuel + 1) p
      GTok.cls false r.1 :: globToksAux fuel r.2
  | fuel + 1, c :: p => GTok.lit c :: globToksAux fuel p

/-- Tokenize with enough fuel for the whole pattern. -/
def globTokens (p : List Char) : List GTok :=
  globToksAux p.length p

/-- Does character `c` fall in one of the class ranges? -/
def matchRanges (rs : List (Char × Char)) (c : Char) : Bool :=
  rs.any fun r => decide (r.1 ≤ c) && decide (c ≤ r.2)

/-- `path/filepath.Match` semantics over tokens: the pattern must consume
the whole name; `*` matches any (possibly empty) run of non-`/` characters,
expressed as the existence of a split. -/
def matchGlob : List GTok → List Char → Bool
  | [], [] => true
  | [], _ :: _ => false
  | GTok.star :: p, s =>
      (List.range (s.length + 1)).any fun k =>
        ((s.take k).all fun c => decide (c ≠ '/')) && matchGlob p (s.drop k)
  | GTok.any :: _, [] => false
  | GTok.any :: p, c :: t => decide (c ≠ '/') && matchGlob p t
  | GTok.cls _ _ :: _, [] => false
  | GTok.cls neg rs :: p, c :: t =>
      (if neg then !(matchRanges rs c) else matchRanges rs c) && matchGlob p t
  | GTok.lit _ :: _, [] => false
  | GTok.lit a :: p, c :: t => decide (a = c) && matchGlob p t

/-- The glob pattern the search mode builds (wm.go line 196): the year class
is appended directly to the configured root, with no separator. -/
def searchPath (root : String) : String :=
  root ++ "[1-9][0-9][0-9][0-9]/*/*.txt"

/-- Does `filepath.Glob`'s pattern for `root` match the path? -/
def globMatch (root : String) (path : String) : Bool :=
  matchGlob (globTokens (searchPath root).data) path.data

/-- `filepath.Glob` (wm.go line 197) over an abstract filesystem: the
existing files whose paths match the pattern. -/
def searchFiles (root : String) (files : List String) : List String :=
  files.filter fun f => globMatch root f

/-- A token of a Go `time` layout string, restricted to the reference-layout
elements occurring in wm.go's `dateFormats`: numeric month `1`, numeric day
`2`, four-digit year `2006`, abbreviated month name `Jan`, full month name
`January`, and literal characters. -/
inductive LTok where
  | lit (c : Char)
  | numMonth
  | numDay
  | longYear
  | monAbbr
  | monFull
  deriving DecidableEq, Repr

/-- Go `nextStdChunk`, restricted to the elements above: `January` before
`Jan`, `2006` before `2`, and everything else literal. -/
def layoutToks : List Char → List LTok
  | [] => []
  | 'J' :: 'a' :: 'n' :: 'u' :: 'a' :: 'r' :: 'y' :: p => LTok.monFull :: layoutToks p
  | 'J' :: 'a' :: 'n' :: p => LTok.monAbbr :: layoutToks p
  | '2' :: '0' :: '0' :: '6' :: p => LTok.longYear :: layoutToks p
  | '1' :: p => LTok.numMonth :: layoutToks p
  | '2' :: p => LTok.numDay :: layoutToks p
  | c :: p => LTok.lit c :: layoutToks p

/-- Numeric value of a decimal digit character. -/
def digitVal (c : Char) : Nat :=
  c.toNat - 48

/-- Go `getnum` with `fixed = false`: one digit, or two if the next
character is also a digit. -/
def getnum2 : List Char → Option (Nat × List Char)
  | [] => none
  | c :: rest =>
      if c.isDigit then
        match rest with
        | c2 :: rest2 =>
            if c2.isDigit then some (digitVal c * 10 + digitVal c2, rest2)
            else some (digitVal c, c2 :: rest2)
        | [] => some (digitVal c, [])
      else none

/-- Go `stdLongYear`: exactly four digits. -/
def getnum4 : List Char → Option (Nat × List Char)
  | a :: b :: c :: d :: rest =>
      if a.isDigit && b.isDigit && c.isDigit && d.isDigit then
        some (((digitVal a * 10 + digitVal b) * 10 + digitVal c) * 10 + digitVal d, rest)
      else none
  | _ => none

/-- Go `match`: ASCII case-insensitive comparison of a name against a prefix
of the input. -/
def matchCI : List Char → List Char → Bool
  | [], _ => true
  | _ :: _, [] => false
  | a :: as, b :: bs => decide (a.toLower = b.toLower) && matchCI as bs

/-- Go `lookup`: first table entry that case-insensitively prefixes the
input; yields the 1-based month number and the rest of the input. -/
def monthLookupAux : Nat → List (List Char) → List Char → Option (Nat × List Char)
  | _, [], _ => none
  | i, n :: ns, s =>
      if matchCI n s then some (i + 1, s.drop n.length)
      else monthLookupAux (i + 1) ns s

def shortMonthNames : List (List Char) :=
  ["Jan".data, "Feb".data, "Mar".data, "Apr".data, "May".data, "Jun".data,
    "Jul".data, "Aug".data, "Sep".data, "Oct".data, "Nov".data, "Dec".data]

def longMonthNames : List (List Char) :=
  ["January".data, "February".data, "March".data, "April".data, "May".data,
    "June".data, "July".data, "August".data, "September".data, "October".data,
    "November".data, "December".data]

/-- The token-consuming loop of Go `time.Parse`: thread the year, month and
day fields; a literal must match exactly; trailing input is an error. -/
def runToks : List LTok → List Char → Nat → Nat → Nat → Option (Nat × Nat × Nat)
  | [], [], y, mo, da => some (y, mo, da)
  | [], _ :: _, _, _, _ => none
  | LTok.lit c :: toks, s, y, mo, da =>
      match s with
      | [] => none
      | c' :: rest => if c = c' then runToks toks rest y mo da else none
  | LTok.numMonth :: toks, s, y, _, da =>
      match getnum2 s with
      | none => none
      | some (v, rest) => runToks toks rest y v da
  | LTok.numDay :: toks, s, y, mo, _ =>
      match getnum2 s with
      | none => none
      | some (v, rest) => runToks toks rest y mo v
  | LTok.longYear :: toks, s, _, mo, da =>
      match getnum4 s with
      | none => none
      | some (v, rest) => runToks toks rest v mo da
  | LTok.monAbbr :: toks, s, y, _, da =>
      match monthLookupAux 0 shortMonthNames s with
      | none => none
      | some (v, rest) => runToks toks rest y v da
  | LTok.monFull :: toks, s, y, _, da =>
      match monthLookupAux 0 longMonthNames s with
      | none => none
      | some (v, rest) => runToks toks rest y v da

def isLeap (y : Nat) : Bool :=
  decide (y % 4 = 0) && (decide (y % 100 ≠ 0) || decide (y % 400 = 0))

/-- Go `daysIn`. -/
def daysInMonth (mo y : Nat) : Nat :=
  if mo = 2 then (if isLeap y then 29 else 28)
  else if mo = 4 ∨ mo = 6 ∨ mo = 9 ∨ mo = 11 then 30
  else 31

/-- Go `time.Parse(layout, value)` for the layouts in `dateFormats`,
returning the parsed calendar date: the fields are validated (month 1-12,
day within the month, leap years respected) after the input is consumed. -/
def timeParse (layout : String) (value : List Char) : Option DatePath :=
  match runToks (layoutToks layout.data) value 0 0 0 with
  | none => none
  | some (y, mo, da) =>
      if 1 ≤ mo ∧ mo ≤ 12 ∧ 1 ≤ da ∧ da ≤ daysInMonth mo y then some ⟨y, mo, da⟩
      else none

/-- The fixed ordered list of layouts (wm.go lines 57-71). -/
def dateFormats : List String :=
  ["1/2/2006", "1-2-2006", "Jan 2 2006", "Jan 2, 2006", "2 Jan 2006",
    "2 Jan, 2006", "2/1/2006", "2-1-2006", "2-Jan-2006", "January 2 2006",
    "January 2, 2006", "2 January 2006", "2 January, 2006"]

/-- The format loop (wm.go lines 73-83): first layout that parses wins. -/
def tryFormats : List String → List Char → Option DatePath
  | [], _ => none
  | df :: rest, s =>
      match timeParse df s with
      | some d => some d
      | none => tryFormats rest s

/-- `unicode.IsSpace` restricted to the ASCII whitespace Go trims. -/
def isSpaceChar (c : Char) : Bool :=
  decide (c = ' ') || decide (c = '\t') || decide (c = '\n')
    || decide (c = '\x0b') || decide (c = '\x0c') || decide (c = '\r')

/-- `strings.TrimSpace`. -/
def trimSpace (s : List Char) : List Char :=
  ((s.dropWhile isSpaceChar).reverse.dropWhile isSpaceChar).reverse

/-- `strings.ToLower` (ASCII view). -/
def lowerStr (s : List Char) : List Char :=
  s.map Char.toLower

/-- `parseDateString` (wm.go lines 32-87). The relative literals read the
system clock, so `now`, `yest` and `tom` are parameters; note that the
no-match error names the lowercased, trimmed input, the variable having been
reassigned at lines 33-34. -/
def parseDateString (now yest tom : DatePath) (inDate : String) : Except String DatePath :=
  let d := trimSpace (lowerStr inDate.data)
  if d = "today".data ∨ d = [] then Except.ok now
  else if d = "yesterday".data then Except.ok yest
  else if d = "tomorrow".data then Except.ok tom
  else
    match tryFormats dateFormats d with
    | some dp => Except.ok dp
    | none => Except.error ("unable to parse '" ++ String.mk d ++ "'")

theorem replaceAll_single (s : List Char) (a b : Char) :
    replaceAll s [a] [b] = s.map (fun c => if c = a then b else c) := by
  induction s with
  | nil => rw [replaceAll]; simp
  | cons c t ih =>
      rw [replaceAll]
      by_cases hc : c = a
      · subst hc
        simp [List.isPrefixOf, ih]
      · simp [List.isPrefixOf, hc, ih]
        intro hac
        exact absurd hac.symm hc

/-- C9: for every `CalendarDate` and root, the path is exactly
`{root}/{year}/{month}/{day}.txt` with no zero-padding on month or day; in
particular root `/logs` with date 2024-03-05 yields `/logs/2024/3/5.txt`. -/
theorem c9_path_format :
    buildPath "/logs" ⟨2024, 3, 5⟩ = "/logs/2024/3/5.txt"
    ∧ buildPath "/logs" ⟨2024, 3, 5⟩ ≠ "/logs/2024/03/05.txt"
    ∧ ∀ (root : String) (pd : DatePath),
        buildPath root pd =
          root ++ "/" ++ toString pd.year ++ "/" ++ toString pd.month ++ "/"
            ++ toString pd.day ++ ".txt" := by
  refine ⟨by decide, by decide, ?_⟩
  intro root pd
  apply String.ext
  simp [buildPath, DatePath.string, String.data_append, List.append_assoc]

/-- C3: `ensureLogFile` is idempotent: when the file already exists nothing
changes, and a second call (even for a different date) alters neither the
filesystem nor the stored content. -/
theorem c3_ensure_idempotent (fsys : FileSys) (p : String) (pd pd' : DatePath) :
    (statExists fsys p = true → ensureLogFile fsys p pd = fsys)
    ∧ ensureLogFile (ensureLogFile fsys p pd) p pd' = ensureLogFile fsys p pd
    ∧ List.lookup p (ensureLogFile (ensureLogFile fsys p pd) p pd')
        = List.lookup p (ensureLogFile fsys p pd) := by
  have hkeep : ∀ (fs : FileSys) (pdx : DatePath),
      statExists fs p = true → ensureLogFile fs p pdx = fs := by
    intro fs pdx h
    simp [ensureLogFile, h]
  have hexist : statExists (ensureLogFile fsys p pd) p = true := by
    by_cases h : statExists fsys p = true
    · rw [hkeep fsys pd h]; exact h
    · have h' : ensureLogFile fsys p pd = (p, (headerFor pd).data) :: fsys := by
        simp [ensureLogFile, h]
      rw [h']
      simp [statExists, List.lookup]
  exact ⟨hkeep fsys pd, hkeep _ pd' hexist, by rw [hkeep _ pd' hexist]⟩

/-- Witness for `c3_ensure_idempotent` at a concrete filesystem. -/
theorem c3_ensure_idempotent_witness :
    ensureLogFile [("/logs/2024/3/5.txt", ['x'])] "/logs/2024/3/5.txt" ⟨2024, 3, 5⟩
      = [("/logs/2024/3/5.txt", ['x'])]
    ∧ ensureLogFile (ensureLogFile [] "/logs/2024/3/5.txt" ⟨2024, 3, 5⟩)
        "/logs/2024/3/5.txt" ⟨2024, 3, 5⟩
      = ensureLogFile [] "/logs/2024/3/5.txt" ⟨2024, 3, 5⟩ :=
  ⟨(c3_ensure_idempotent [("/logs/2024/3/5.txt", ['x'])] "/logs/2024/3/5.txt"
      ⟨2024, 3, 5⟩ ⟨2024, 3, 5⟩).1 (by decide),
   (c3_ensure_idempotent [] "/logs/2024/3/5.txt" ⟨2024, 3, 5⟩ ⟨2024, 3, 5⟩).2.1⟩

/-- C10: the documented defaults are applied only by writing them into a
newly created config file; decoding an existing file that omits a key yields
that field's zero value. -/
theorem c10_config_defaults (fsys : List (String × ConfigDoc)) (cfgFile : String)
    (doc : ConfigDoc) :
    (List.lookup cfgFile fsys = some doc →
      (GetConfig fsys cfgFile).2 = fsys
      ∧ (doc.root = none → (GetConfig fsys cfgFile).1.Root = "")
      ∧ (doc.editor = none → (GetConfig fsys cfgFile).1.Editor = "")
      ∧ (doc.context_size = none → (GetConfig fsys cfgFile).1.ContextSize = 0))
    ∧ (List.lookup cfgFile fsys = none →
      (GetConfig fsys cfgFile).1 = ⟨"~/.wm/logs", "notepad", 200⟩
      ∧ List.lookup cfgFile (GetConfig fsys cfgFile).2 = some defaultConfigDoc) := by
  constructor
  · intro h
    refine ⟨by simp [GetConfig, h], ?_, ?_, ?_⟩
    · intro hr; simp [GetConfig, h, decodeConfig, hr]
    · intro he; simp [GetConfig, h, decodeConfig, he]
    · intro hc; simp [GetConfig, h, decodeConfig, hc]
  · intro h
    refine ⟨by simp [GetConfig, h, decodeConfig, defaultConfigDoc], ?_⟩
    simp [GetConfig, h, List.lookup]

/-- Witness for `c10_config_defaults`: a file omitting `root` decodes with an
empty root, and a missing file is created with the documented defaults. -/
theorem c10_config_defaults_witness :
    (GetConfig [("wm.toml", ⟨none, some "vi", none⟩)] "wm.toml").1.Root = ""
    ∧ (GetConfig [] "wm.toml").1 = ⟨"~/.wm/logs", "notepad", 200⟩ :=
  ⟨((c10_config_defaults [("wm.toml", ⟨none, some "vi", none⟩)] "wm.toml"
      ⟨none, some "vi", none⟩).1 (by decide)).2.1 rfl,
   ((c10_config_defaults [] "wm.toml" defaultConfigDoc).2 (by decide)).1⟩

theorem resolveLogPath_eq_map (hd p : String)
    (hmark : strContains p.data "~/".data = true) :
    resolveLogPath (some hd) p
      = Except.ok (String.mk ((replaceFirst p.data "~/".data (hd ++ "/").data).map
          (fun c => if c = '/' then '\\' else c))) := by
  simp only [resolveLogPath, hmark, if_true]
  rw [replaceAll_single]

/-- C1 counterexample: on a host whose native separator is `/`, the code does
not normalize to the native separator: for the path `~/logs/2024/3/5.txt` with
home `/home/u` the code yields a fully backslashed path, while the
spec-described normalization to the native separator `/` yields a different
path. The claim as stated is therefore false. -/
theorem c1_native_separator_counterexample :
    resolveLogPath (some "/home/u") "~/logs/2024/3/5.txt"
      = Except.ok "\\home\\u\\logs\\2024\\3\\5.txt"
    ∧ resolveLogPathSpec '/' (some "/home/u") "~/logs/2024/3/5.txt"
      = Except.ok "/home/u/logs/2024/3/5.txt"
    ∧ resolveLogPath (some "/home/u") "~/logs/2024/3/5.txt"
      ≠ resolveLogPathSpec '/' (some "/home/u") "~/logs/2024/3/5.txt" := by
  have er : resolveLogPath (some "/home/u") "~/logs/2024/3/5.txt"
      = Except.ok "\\home\\u\\logs\\2024\\3\\5.txt" := by
    rw [resolveLogPath_eq_map "/home/u" "~/logs/2024/3/5.txt" (by decide)]
    rfl
  have es : resolveLogPathSpec '/' (some "/home/u") "~/logs/2024/3/5.txt"
      = Except.ok "/home/u/logs/2024/3/5.txt" := by
    rfl
  refine ⟨er, es, ?_⟩
  rw [er, es]
  intro h
  injection h with h2
  exact absurd h2 (by decide)

/-- C1 amended: for every path containing the `~/` marker, the program
substitutes the home directory for the first occurrence of the marker and
then replaces every `/` with a backslash (the Windows separator), regardless
of host, so no `/` remains in the result; if home resolution fails it fails
with an error. -/
theorem c1_home_expansion (hd : String) (p : String)
    (hmark : strContains p.data "~/".data = true) :
    resolveLogPath (some hd) p
      = Except.ok (String.mk ((replaceFirst p.data "~/".data (hd ++ "/").data).map
          (fun c => if c = '/' then '\\' else c)))
    ∧ (∀ q, resolveLogPath (some hd) p = Except.ok q → '/' ∉ q.data)
    ∧ resolveLogPath none p
      = Except.error "failed to convert '~' to the users home directory" := by
  have h1 := resolveLogPath_eq_map hd p hmark
  refine ⟨h1, ?_, by simp [resolveLogPath, hmark]⟩
  intro q hq hmem
  rw [h1] at hq
  injection hq with hq2
  rw [← hq2] at hmem
  rcases List.mem_map.mp hmem with ⟨c, hc1, hc2⟩
  split_ifs at hc2 with h
  · exact absurd hc2 (by decide)
  · exact absurd hc2 h

/-- Witness for `c1_home_expansion` at a concrete path and home directory. -/
theorem c1_home_expansion_witness :
    resolveLogPath (some "/home/u") "~/logs/2024/3/5.txt"
      = Except.ok (String.mk ((replaceFirst "~/logs/2024/3/5.txt".data "~/".data
          ("/home/u" ++ "/").data).map (fun c => if c = '/' then '\\' else c)))
    ∧ resolveLogPath none "~/logs/2024/3/5.txt"
      = Except.error "failed to convert '~' to the users home directory" :=
  ⟨(c1_home_expansion "/home/u" "~/logs/2024/3/5.txt" (by decide)).1,
   (c1_home_expansion "/home/u" "~/logs/2024/3/5.txt" (by decide)).2.2⟩

theorem numberFrom_map_num (l : List α) :
    ∀ k, (numberFrom k l).map (fun p => p.1 + 1) = List.range' (k + 1) l.length := by
  induction l with
  | nil => intro k; simp [numberFrom]
  | cons a t ih => intro k; simp [numberFrom, List.range', ih (k + 1)]

theorem numberFrom_map_snd (l : List α) :
    ∀ k, (numberFrom k l).map (fun p => p.2) = l := by
  induction l with
  | nil => intro k; simp [numberFrom]
  | cons a t ih => intro k; simp [numberFrom, ih (k + 1)]

/-- C6: within one file, all hits of the first term are emitted before any
hit of the second term (the per-file output is the concatenation of the
per-term passes), each term's hits are numbered 1, 2, ... independently, and
within a pass the hits appear at exactly the offsets the engine reports, in
the engine's order. -/
theorem c6_term_order (a b : Matcher) (data : List Char) (ctxSize : Int) :
    fileHits [a, b] data ctxSize = termHits a data ctxSize ++ termHits b data ctxSize
    ∧ (termHits a data ctxSize).map Hit.num = List.range' 1 (a data).length
    ∧ (termHits b data ctxSize).map Hit.num = List.range' 1 (b data).length
    ∧ (termHits a data ctxSize).map Hit.start = (a data).map Prod.fst
    ∧ (termHits b data ctxSize).map Hit.start = (b data).map Prod.fst := by
  have hnum : ∀ (f : Matcher), (termHits f data ctxSize).map Hit.num
      = List.range' 1 (f data).length := by
    intro f
    have := numberFrom_map_num (f data) 0
    simpa [termHits, List.map_map, Function.comp] using this
  have hstart : ∀ (f : Matcher), (termHits f data ctxSize).map Hit.start
      = (f data).map Prod.fst := by
    intro f
    have := congrArg (List.map Prod.fst) (numberFrom_map_snd (f data) 0)
    simpa [termHits, List.map_map, Function.comp] using this
  exact ⟨by simp [fileHits], hnum a, hnum b, hstart a, hstart b⟩

/-- C8: the context window bounds are `start ± contextRadius` clamped to
`[0, len]`, so for a nonnegative radius and an in-file match start the window
is a well-formed slice lying inside the file content (an infix of it). -/
theorem c8_context_clamped (len : Nat) (ctxSize : Int) (start : Nat)
    (hc : 0 ≤ ctxSize) (hs : start ≤ len) :
    0 ≤ (windowBounds len ctxSize start).1
    ∧ (windowBounds len ctxSize start).1 ≤ (windowBounds len ctxSize start).2
    ∧ (windowBounds len ctxSize start).2 ≤ (len : Int)
    ∧ (windowBounds len ctxSize start).1 = max 0 ((start : Int) - ctxSize)
    ∧ (windowBounds len ctxSize start).2 = min ((start : Int) + ctxSize) (len : Int)
    ∧ ∀ data : List Char, data.length = len →
        (contextAt data ctxSize start).length
            = ((windowBounds len ctxSize start).2 - (windowBounds len ctxSize start).1).toNat
        ∧ contextAt data ctxSize start <:+: data := by
  refine ⟨?_, ?_, ?_, ?_, ?_, ?_⟩
  · simp only [windowBounds]; split_ifs <;> omega
  · simp only [windowBounds]; split_ifs <;> omega
  · simp only [windowBounds]; split_ifs <;> omega
  · simp only [windowBounds]; split_ifs <;> omega
  · simp only [windowBounds]; split_ifs <;> omega
  · intro data hlen
    constructor
    · simp only [contextAt, hlen, List.length_take, List.length_drop]
      simp only [windowBounds]
      split_ifs <;> omega
    · exact ((List.take_prefix _ _).isInfix).trans ((List.drop_suffix _ _).isInfix)

/-- Witness for `c8_context_clamped` with radius 3 and a match at offset 1 in
a 10-character file. -/
theorem c8_context_clamped_witness :
    (windowBounds 10 3 1).1 = max 0 ((1 : Int) - 3)
    ∧ contextAt ['a', 'b', 'c', 'd', 'e', 'f', 'g', 'h', 'i', 'j'] 3 1
        <:+: ['a', 'b', 'c', 'd', 'e', 'f', 'g', 'h', 'i', 'j'] :=
  ⟨(c8_context_clamped 10 3 1 (by decide) (by decide)).2.2.2.1,
   ((c8_context_clamped 10 3 1 (by decide) (by decide)).2.2.2.2.2
      ['a', 'b', 'c', 'd', 'e', 'f', 'g', 'h', 'i', 'j'] rfl).2⟩

/-- C4 counterexample: a file whose read fails is not fully skipped: its
header line is still printed, and a term whose regex matches the empty string
(here the empty pattern) still yields a numbered hit against the nil data, so
the claim's "no hits and no output for the skipped file" is false. -/
theorem c4_unreadable_counterexample :
    processFile [litFind []] 200 "log.txt" none
      = [OutLine.warn "log.txt", OutLine.header "log.txt", OutLine.hit 1 ['\t', '\n']]
    ∧ OutLine.hit 1 ['\t', '\n'] ∈ processFile [litFind []] 200 "log.txt" none
    ∧ processFile [litFind []] 200 "log.txt" none ≠ [OutLine.warn "log.txt"] := by
  have h : processFile [litFind []] 200 "log.txt" none
      = [OutLine.warn "log.txt", OutLine.header "log.txt", OutLine.hit 1 ['\t', '\n']] := by
    have hfind : litFind [] ([] : List Char) = [(0, 0)] := by
      rw [litFind]
      rw [litFindAux]
      simp
    simp [processFile, fileHits, termHits, hfind, numberFrom, contextAt, windowBounds,
      indentLines]
  refine ⟨h, by rw [h]; simp, by rw [h]; simp⟩

/-- C4 amended: a per-file read failure during search is logged as a warning
and is not fatal — the search continues over the remaining files — but the
file is not skipped: its header line is still printed and matching runs
against empty content, so only terms with no empty-content match produce no
hits for it. -/
theorem c4_unreadable_amended (finds : List Matcher) (ctxSize : Int) (f : String)
    (pre post : List (String × Option (List Char))) :
    runFiles finds ctxSize (pre ++ (f, none) :: post)
      = runFiles finds ctxSize pre
        ++ (OutLine.warn f :: OutLine.header f ::
              (fileHits finds [] ctxSize).map (fun h => OutLine.hit h.num h.context))
        ++ runFiles finds ctxSize post
    ∧ ((∀ find ∈ finds, find [] = []) →
        processFile finds ctxSize f none = [OutLine.warn f, OutLine.header f]) := by
  constructor
  · induction pre with
    | nil => simp [runFiles, processFile]
    | cons x rest ih =>
        cases x with
        | mk xf xc => simp [runFiles, ih, List.append_assoc]
  · intro hempty
    have hnil : fileHits finds [] ctxSize = [] := by
      induction finds with
      | nil => simp [fileHits]
      | cons find rest ih =>
          have h1 : find [] = [] := hempty find (List.mem_cons_self find rest)
          have h2 : ∀ fd ∈ rest, fd [] = [] := fun fd hfd =>
            hempty fd (List.mem_cons_of_mem find hfd)
          simp [fileHits, termHits, h1, numberFrom, ih h2]
    simp [processFile, hnil]

/-- Witness for `c4_unreadable_amended` at a concrete file list and a matcher
with no empty-content match. -/
theorem c4_unreadable_amended_witness :
    runFiles [fun _ => []] 200 ([("a.txt", some ['x'])] ++ ("bad.txt", none) :: [])
      = runFiles [fun _ => []] 200 [("a.txt", some ['x'])]
        ++ (OutLine.warn "bad.txt" :: OutLine.header "bad.txt" ::
              (fileHits [fun _ => []] [] 200).map (fun h => OutLine.hit h.num h.context))
        ++ runFiles [fun _ => []] 200 []
    ∧ processFile [fun _ => []] 200 "bad.txt" none
      = [OutLine.warn "bad.txt", OutLine.header "bad.txt"] :=
  ⟨(c4_unreadable_amended [fun _ => []] 200 "bad.txt" [("a.txt", some ['x'])] []).1,
   (c4_unreadable_amended [fun _ => []] 200 "bad.txt" [("a.txt", some ['x'])] []).2
     (by intro fd hfd; simp at hfd; subst hfd; rfl)⟩

theorem isPrefixOf_self (t : List Char) : t.isPrefixOf t = true := by
  induction t with
  | nil => rfl
  | cons c cs ih => simp [List.isPrefixOf, ih]

theorem strContains_append_self (x t : List Char) : strContains (x ++ t) t = true := by
  induction x with
  | nil =>
      rw [strContains.eq_def]
      simp [isPrefixOf_self]
  | cons c cs ih =>
      rw [strContains.eq_def]
      simp [ih]

theorem compileAll_first_error (compile : String → Option Matcher) (t : String)
    (ht : compile t = none) :
    ∀ pre post, (∀ s ∈ pre, (compile s).isSome) →
      compileAll compile (pre ++ t :: post)
        = Except.error ("could not compile search term: " ++ t) := by
  intro pre
  induction pre with
  | nil =>
      intro post _
      simp [compileAll, ht]
  | cons s rest ih =>
      intro post hpre
      have hs : (compile s).isSome := hpre s (List.mem_cons_self s rest)
      rcases Option.isSome_iff_exists.mp hs with ⟨m, hm⟩
      have hrest : ∀ s' ∈ rest, (compile s').isSome := fun s' hs' =>
        hpre s' (List.mem_cons_of_mem s hs')
      simp [compileAll, hm, ih post hrest]

/-- C7: if a term fails to compile (the first such term in the list), the
search fails with an error naming that term, and the result does not depend
on the files at all — no log file content is consulted before the failure. -/
theorem c7_bad_regex (compile : String → Option Matcher) (pre post : List String)
    (t : String) (ctxSize : Int)
    (hpre : ∀ s ∈ pre, (compile s).isSome) (ht : compile t = none) :
    ∀ files files' : List (String × Option (List Char)),
      runSearch compile (pre ++ t :: post) files ctxSize
        = Except.error ("could not compile search term: " ++ t)
      ∧ runSearch compile (pre ++ t :: post) files ctxSize
        = runSearch compile (pre ++ t :: post) files' ctxSize
      ∧ strContains ("could not compile search term: " ++ t).data t.data = true := by
  intro files files'
  have herr := compileAll_first_error compile t ht pre post hpre
  have hnam : strContains ("could not compile search term: " ++ t).data t.data = true := by
    have : ("could not compile search term: " ++ t).data
        = "could not compile search term: ".data ++ t.data := by
      simp [String.data_append]
    rw [this]
    exact strContains_append_self _ _
  exact ⟨by simp [runSearch, herr], by simp [runSearch, herr], hnam⟩

/-- Witness for `c7_bad_regex`: a compiler rejecting the malformed term `(`
makes the search fail with the error naming `(` before any file matters. -/
theorem c7_bad_regex_witness :
    runSearch (fun s => if s = "(" then none else some (fun _ => []))
        (["ok"] ++ "(" :: ["x"]) [("f", some ['a'])] 200
      = Except.error ("could not compile search term: " ++ "(") :=
  (c7_bad_regex (fun s => if s = "(" then none else some (fun _ => [])) ["ok"] ["x"]
    "(" 200
    (by intro s hs; simp at hs; subst hs; simp)
    (by simp)
    [("f", some ['a'])] []).1

theorem take_append_len (m s : List Char) : (m ++ s).take m.length = m := by
  induction m with
  | nil => simp
  | cons c t ih => simp [ih]

theorem drop_append_len (m s : List Char) : (m ++ s).drop m.length = s := by
  induction m with
  | nil => simp
  | cons c t ih => simp [ih]

theorem matchGlob_star (p : List GTok) (m s : List Char)
    (hm : ∀ c ∈ m, c ≠ '/') (h : matchGlob p s = true) :
    matchGlob (GTok.star :: p) (m ++ s) = true := by
  simp only [matchGlob]
  refine List.any_eq_true.mpr ⟨m.length, ?_, ?_⟩
  · refine List.mem_range.mpr ?_
    simp [List.length_append]
    omega
  · rw [take_append_len, drop_append_len, h]
    have hall : m.all (fun c => decide (c ≠ '/')) = true :=
      List.all_eq_true.mpr fun c hc => decide_eq_true (hm c hc)
    simp [hall]
    exact hm

theorem matchGlob_lit (a : Char) (p : List GTok) (s : List Char) :
    matchGlob (GTok.lit a :: p) (a :: s) = matchGlob p s := by
  simp [matchGlob]

theorem matchGlob_cls_pos (rs : List (Char × Char)) (p : List GTok) (c : Char)
    (s : List Char) (hc : matchRanges rs c = true) :
    matchGlob (GTok.cls false rs :: p) (c :: s) = matchGlob p s := by
  simp [matchGlob, hc]

/-- C2 counterexample: the path `/logs/2024/3/5.txt` — exactly of the claimed
form `{root}/[year]/[month]/[day].txt` with digit-sequence components — is
NOT matched by the glob the code builds (the year class is appended to the
root without a separator), so search does not enumerate it; conversely the
glob matches `/logs2024/abc/def.txt`, whose month component is not a digit
sequence. -/
theorem c2_glob_counterexample :
    ("2024".data.all Char.isDigit ∧ "3".data.all Char.isDigit
      ∧ "5".data.all Char.isDigit)
    ∧ "/logs" ++ "/" ++ "2024" ++ "/" ++ "3" ++ "/" ++ "5" ++ ".txt"
        = "/logs/2024/3/5.txt"
    ∧ globMatch "/logs" "/logs/2024/3/5.txt" = false
    ∧ searchFiles "/logs" ["/logs/2024/3/5.txt"] = []
    ∧ globMatch "/logs" "/logs2024/abc/def.txt" = true := by
  refine ⟨by decide, by decide, by decide, by decide, by decide⟩

/-- C2 amended: the search enumerates the files matching the glob
`{root}[1-9][0-9][0-9][0-9]/*/*.txt` — a four-digit year (leading digit
nonzero) appended directly to the root with no separator, and arbitrary
non-separator month and day components with the day file ending in `.txt` —
rather than digit-validated `{root}/[year]/[month]/[day].txt` paths. -/
theorem c2_glob_amended (y1 y2 y3 y4 : Char) (m d : List Char)
    (hy1 : '1' ≤ y1) (hy2 : y1 ≤ '9') (hy3 : '0' ≤ y2) (hy4 : y2 ≤ '9')
    (hy5 : '0' ≤ y3) (hy6 : y3 ≤ '9') (hy7 : '0' ≤ y4) (hy8 : y4 ≤ '9')
    (hm : ∀ c ∈ m, c ≠ '/') (hd : ∀ c ∈ d, c ≠ '/') :
    globMatch "/logs" (String.mk ("/logs".data
        ++ y1 :: y2 :: y3 :: y4 :: '/' :: (m ++ '/' :: (d ++ ".txt".data)))) = true
    ∧ searchFiles "/logs"
        [String.mk ("/logs".data
            ++ y1 :: y2 :: y3 :: y4 :: '/' :: (m ++ '/' :: (d ++ ".txt".data))),
          "/logs/2024/3/5.txt"]
      = [String.mk ("/logs".data
          ++ y1 :: y2 :: y3 :: y4 :: '/' :: (m ++ '/' :: (d ++ ".txt".data)))] := by
  have htoks : globTokens (searchPath "/logs").data
      = [GTok.lit '/', GTok.lit 'l', GTok.lit 'o', GTok.lit 'g', GTok.lit 's',
          GTok.cls false [('1', '9')], GTok.cls false [('0', '9')],
          GTok.cls false [('0', '9')], GTok.cls false [('0', '9')],
          GTok.lit '/', GTok.star, GTok.lit '/', GTok.star,
          GTok.lit '.', GTok.lit 't', GTok.lit 'x', GTok.lit 't'] := by decide
  have hcls1 : matchRanges [('1', '9')] y1 = true := by
    simp [matchRanges]
    exact ⟨hy1, hy2⟩
  have hcls2 : matchRanges [('0', '9')] y2 = true := by
    simp [matchRanges]
    exact ⟨hy3, hy4⟩
  have hcls3 : matchRanges [('0', '9')] y3 = true := by
    simp [matchRanges]
    exact ⟨hy5, hy6⟩
  have hcls4 : matchRanges [('0', '9')] y4 = true := by
    simp [matchRanges]
    exact ⟨hy7, hy8⟩
  have hday : matchGlob [GTok.star, GTok.lit '.', GTok.lit 't', GTok.lit 'x', GTok.lit 't']
      (d ++ ".txt".data) = true :=
    matchGlob_star _ d _ hd (by decide)
  have hmon : matchGlob
      [GTok.star, GTok.lit '/', GTok.star, GTok.lit '.', GTok.lit 't', GTok.lit 'x',
        GTok.lit 't'] (m ++ '/' :: (d ++ ".txt".data)) = true :=
    matchGlob_star _ m _ hm (by rw [matchGlob_lit]; exact hday)
  have hmain : globMatch "/logs" (String.mk ("/logs".data
      ++ y1 :: y2 :: y3 :: y4 :: '/' :: (m ++ '/' :: (d ++ ".txt".data)))) = true := by
    show matchGlob (globTokens (searchPath "/logs").data)
      ('/' :: 'l' :: 'o' :: 'g' :: 's'
        :: y1 :: y2 :: y3 :: y4 :: '/' :: (m ++ '/' :: (d ++ ".txt".data))) = true
    rw [htoks, matchGlob_lit, matchGlob_lit, matchGlob_lit, matchGlob_lit, matchGlob_lit,
      matchGlob_cls_pos _ _ _ _ hcls1, matchGlob_cls_pos _ _ _ _ hcls2,
      matchGlob_cls_pos _ _ _ _ hcls3, matchGlob_cls_pos _ _ _ _ hcls4,
      matchGlob_lit]
    exact hmon
  refine ⟨hmain, ?_⟩
  simp only [searchFiles, List.filter]
  rw [hmain]
  simp [show globMatch "/logs" "/logs/2024/3/5.txt" = false from by decide]

/-- Witness for `c2_glob_amended` with year 2024, month `3`, day `5`: the
code's glob requires the year directly after the root. -/
theorem c2_glob_amended_witness :
    globMatch "/logs" (String.mk ("/logs".data
        ++ '2' :: '0' :: '2' :: '4' :: '/' :: (['3'] ++ '/' :: (['5'] ++ ".txt".data))))
      = true :=
  (c2_glob_amended '2' '0' '2' '4' ['3'] ['5']
    (by decide) (by decide) (by decide) (by decide) (by decide) (by decide)
    (by decide) (by decide)
    (by intro c hc; simp at hc; subst hc; decide)
    (by intro c hc; simp at hc; subst hc; decide)).1

theorem tryFormats_first (fmts : List String) (s : List Char) (dp : DatePath) :
    ∀ (i : Nat) (h : i < fmts.length), timeParse (fmts.get ⟨i, h⟩) s = some dp →
      (∀ (j : Nat) (hj : j < i), timeParse (fmts.get ⟨j, Nat.lt_trans hj h⟩) s = none) →
      tryFormats fmts s = some dp := by
  induction fmts with
  | nil =>
      intro i h
      exact absurd h (Nat.not_lt_zero i)
  | cons f rest ih =>
      intro i h hi hprev
      cases i with
      | zero =>
          have hf : timeParse f s = some dp := hi
          simp [tryFormats, hf]
      | succ i' =>
          have h0 : timeParse f s = none := hprev 0 (Nat.succ_pos i')
          have hrest : tryFormats rest s = some dp := by
            refine ih i' (Nat.lt_of_succ_lt_succ h) hi ?_
            intro j hj
            exact hprev (j + 1) (Nat.succ_lt_succ hj)
          simp [tryFormats, h0, hrest]

/-- C5 amended: a date string matching several of the fixed ordered layouts
is resolved by the first matching layout (so "3/4/2024", which both the
month-first and the day-first numeric layouts accept, resolves with month 3
and day 4), and a non-literal string matching no layout fails with a
ParseError naming the lowercased, whitespace-trimmed form of the input. -/
theorem c5_first_pattern :
    (∀ (s : List Char) (dp : DatePath) (i : Nat) (h : i < dateFormats.length),
        timeParse (dateFormats.get ⟨i, h⟩) s = some dp →
        (∀ (j : Nat) (hj : j < i),
          timeParse (dateFormats.get ⟨j, Nat.lt_trans hj h⟩) s = none) →
        tryFormats dateFormats s = some dp)
    ∧ timeParse "1/2/2006" "3/4/2024".data = some ⟨2024, 3, 4⟩
    ∧ timeParse "2/1/2006" "3/4/2024".data = some ⟨2024, 4, 3⟩
    ∧ tryFormats dateFormats "3/4/2024".data = some ⟨2024, 3, 4⟩
    ∧ ∀ (now yest tom : DatePath) (s : String),
        trimSpace (lowerStr s.data) ≠ "today".data →
        trimSpace (lowerStr s.data) ≠ [] →
        trimSpace (lowerStr s.data) ≠ "yesterday".data →
        trimSpace (lowerStr s.data) ≠ "tomorrow".data →
        tryFormats dateFormats (trimSpace (lowerStr s.data)) = none →
        parseDateString now yest tom s
          = Except.error ("unable to parse '"
              ++ String.mk (trimSpace (lowerStr s.data)) ++ "'") := by
  refine ⟨tryFormats_first dateFormats, by decide, by decide, by decide, ?_⟩
  intro now yest tom s h1 h2 h3 h4 h5
  simp [parseDateString, h1, h2, h3, h4, h5]

/-- Witness for `c5_first_pattern`: the concrete ambiguous date and the
concrete unparseable input. -/
theorem c5_first_pattern_witness :
    tryFormats dateFormats "3/4/2024".data = some ⟨2024, 3, 4⟩
    ∧ parseDateString ⟨2025, 1, 1⟩ ⟨2024, 12, 31⟩ ⟨2025, 1, 2⟩ "XYZ"
      = Except.error "unable to parse 'xyz'" :=
  ⟨c5_first_pattern.1 "3/4/2024".data ⟨2024, 3, 4⟩ 0 (by decide) (by decide)
      (fun j hj => absurd hj (Nat.not_lt_zero j)),
   (c5_first_pattern.2.2.2.2 ⟨2025, 1, 1⟩ ⟨2024, 12, 31⟩ ⟨2025, 1, 2⟩ "XYZ"
      (by decide) (by decide) (by decide) (by decide) (by decide)).trans
     (congrArg Except.error (by decide))⟩

/-- C5 counterexample: for the input "XYZ" no pattern matches and the error
message names the lowercased form 'xyz'; the original input "XYZ" does not
occur in the message, so the error does not name the original input. -/
theorem c5_error_naming_counterexample :
    parseDateString ⟨2025, 1, 1⟩ ⟨2024, 12, 31⟩ ⟨2025, 1, 2⟩ "XYZ"
      = Except.error "unable to parse 'xyz'"
    ∧ strContains "unable to parse 'xyz'".data "XYZ".data = false
    ∧ strContains "unable to parse 'xyz'".data "xyz".data = true := by
  refine ⟨rfl, by decide, by decide⟩

end WM
